import Mathlib

/-!
Verification of the numeric core of `lsst/pipe/analysis` (robust statistics,
systematic-error solver, stellar-locus polynomial fitting, curve distances).

The Python source is shallowly embedded over exact rationals.  Floating-point
values are modelled by the type `F`: either `nan` or an exact rational.  All
NaN propagation rules of IEEE arithmetic that the code relies on are modelled
explicitly (arithmetic with a NaN operand yields NaN, every ordered comparison
involving a NaN is false).  Rounding error is not modelled; every claim
settled here is about the exact algebraic structure of the algorithms, not
about rounding.

External numeric libraries (`np.polyfit`, `scipy.optimize.root`, `np.roots`,
and `orthogonalRegression` from `lsst.pipe.analysis.utils`) are modelled as
total oracle parameters: the embedded control flow is exactly that of the
source, while the library result is an arbitrary value supplied by the oracle.
`np.percentile` with linear interpolation is implemented exactly (it is pure
arithmetic), returning NaN when the data contains a NaN.
-/

namespace AnalysisSpec

/-- A floating-point value: NaN or an exact rational.  (Infinities never
arise in the embedded code paths, whose inputs are pre-filtered finite.) -/
inductive F where
  | nan : F
  | val : ℚ → F
deriving DecidableEq, Repr

namespace F

/-- NaN test, modelling `np.isnan` (and `not np.isfinite` on our domain). -/
def isNaN : F → Bool
  | nan => true
  | val _ => false

/-- Addition with NaN propagation. -/
def add : F → F → F
  | nan, _ => nan
  | _, nan => nan
  | val a, val b => val (a + b)

/-- Subtraction with NaN propagation. -/
def sub : F → F → F
  | nan, _ => nan
  | _, nan => nan
  | val a, val b => val (a - b)

/-- Multiplication with NaN propagation. -/
def mul : F → F → F
  | nan, _ => nan
  | _, nan => nan
  | val a, val b => val (a * b)

/-- Absolute value, modelling `np.abs`; NaN maps to NaN. -/
def fabs : F → F
  | nan => nan
  | val a => val |a|

/-- Strict `>` as computed on floats: false whenever an operand is NaN. -/
def gtb : F → F → Bool
  | nan, _ => false
  | _, nan => false
  | val a, val b => decide (b < a)

/-- `>=` as computed on floats: false whenever an operand is NaN. -/
def geb : F → F → Bool
  | nan, _ => false
  | _, nan => false
  | val a, val b => decide (b ≤ a)

/-- The rational carried by a finite value (0 for NaN; used only under
a no-NaN guard). -/
def toQ : F → ℚ
  | nan => 0
  | val q => q

end F

/-- Number of `true` entries of a boolean mask, modelling `mask.sum()`. -/
def countTrue (bs : List Bool) : ℕ :=
  bs.count true

/-- Boolean-mask extraction `xs[mask]` (order preserving, as in numpy). -/
def maskL {α : Type} (xs : List α) (bs : List Bool) : List α :=
  (xs.zip bs).filterMap (fun ab => if ab.2 then some ab.1 else none)

/-- Elementwise conjunction of two masks, modelling `a & b`. -/
def andL (a b : List Bool) : List Bool :=
  List.zipWith (fun x y => x && y) a b

/-- Arithmetic mean of a list of float values, modelling `arr.mean()`:
NaN on an empty array (numpy emits a warning and returns NaN) and NaN
whenever some entry is NaN. -/
def listMean (l : List F) : F :=
  if l.isEmpty then F.nan
  else if l.any F.isNaN then F.nan
  else F.val ((l.map F.toQ).sum / l.length)

/-- The interpolation kernel of `np.percentile` on an already sorted list:
take the fractional index `h = p*(n-1)/100` and interpolate linearly
between the neighbouring order statistics. -/
def pctlSorted (s : List ℚ) (p : ℚ) : ℚ :=
  if s.isEmpty then 0
  else
    let n : ℕ := s.length
    let h : ℚ := p * ((n : ℚ) - 1) / 100
    let i : ℕ := (Int.toNat ⌊h⌋)
    let vi := s.getD i 0
    vi + (h - (i : ℚ)) * (s.getD (i + 1) 0 - vi)

/-- `np.percentile(l, p)` with the default linear interpolation, on exact
rationals: sort, then interpolate.  Empty input yields the junk value 0
(numpy raises there; all embedded call sites are guarded or the
surrounding theorems carry hypotheses that keep the data nonempty). -/
def pctlQ (l : List ℚ) (p : ℚ) : ℚ :=
  pctlSorted (l.insertionSort (fun a b => a ≤ b)) p

/-- `np.percentile` lifted to float values: NaN when the data contains a
NaN (modern numpy semantics; the claims settled here do not depend on the
behaviour older numpy exhibits in that case) and NaN on empty data. -/
def pctlF (l : List F) (p : ℚ) : F :=
  if l.isEmpty || l.any F.isNaN then F.nan
  else F.val (pctlQ (l.map F.toQ) p)

/-- Result record of `Analysis.calculateStats` (`analysis.py`, `Stats`).
`stdevSq` holds the radicand of the reported standard deviation: the source
returns `stdev = np.sqrt(((quantity[good] - mean)**2).mean())`, and since
the square root is injective on the non-negatives (with NaN preserved),
every statement about the reported stdev is stated on `stdevSq`.
`dataUsed` is the boolean used-mask (the source stores the scalar `0` in
the degenerate branch; the all-false mask represents it here). -/
structure StatsR where
  dataUsed : List Bool
  num : ℕ
  total : ℕ
  mean : F
  stdevSq : F
  forcedMeanF : Option F
  median : F
  clip : F
deriving DecidableEq, Repr

/-- Shallow embedding of `Analysis.calculateStats` (`analysis.py` lines
636-650).  `clipCfg` is `self.config.clip` (default 4.0); `0.74 = 37/50`
exactly.  The used-mask is `selection & not(|quantity - median| > clip)`,
written with `not (... > ...)` exactly as in the source: the two forms
differ on NaN entries, which the source's form keeps. -/
def calculateStats (clipCfg : ℚ) (quantity : List F) (selection : List Bool)
    (forcedMean : Option F) : StatsR :=
  let total := countTrue selection
  if total = 0 then
    ⟨List.replicate quantity.length false, 0, 0, F.nan, F.nan, some F.nan, F.nan, F.nan⟩
  else
    let selVals := maskL quantity selection
    let median := pctlF selVals 50
    let clip := F.mul (F.val (clipCfg * (37 / 50))) (F.sub (pctlF selVals 75) (pctlF selVals 25))
    let good := (selection.zip quantity).map
      (fun sq => sq.1 && !(F.gtb (F.fabs (F.sub sq.2 median)) clip))
    let usedVals := maskL quantity good
    let actualMean := listMean usedVals
    let meanActive := forcedMean.getD actualMean
    let stdevSq := listMean (usedVals.map (fun v => F.mul (F.sub v meanActive) (F.sub v meanActive)))
    ⟨good, countTrue good, total, actualMean, stdevSq, forcedMean, median, clip⟩

/-- Outcome of the external 1-D root-find `scipy.optimize.root(function, 0.0,
tol=tol)` in `Analysis.calculateSysError`: either success carrying `result.x[0]`
or failure (`result.success` false). -/
inductive RootResult where
  | found : ℚ → RootResult
  | fail : RootResult
deriving DecidableEq, Repr

/-- A real-or-NaN value, used where the source takes a floating square root. -/
inductive RF where
  | nan : RF
  | val : ℝ → RF

/-- `np.sqrt` on a finite input: NaN for negative arguments (numpy warns and
returns NaN), otherwise the real square root. -/
noncomputable def sqrtQF (x : ℚ) : RF :=
  if x < 0 then RF.nan else RF.val (Real.sqrt x)

/-- Shallow embedding of the answer computed by `Analysis.calculateSysError`
(`analysis.py` lines 652-670): on solver failure the answer is `np.nan`
(after printing a warning — I/O, not modelled); on success it is
`np.sqrt(result.x[0])`.  The trailing diagnostic `print` re-evaluates the
objective, which only calls `calculateStats` and numpy arithmetic — all
total — so no exception path exists. -/
noncomputable def calculateSysError : RootResult → RF
  | .fail => RF.nan
  | .found x => sqrtQF x

/-- `np.polyval p x` for a coefficient list with the highest degree first. -/
def polyvalQ (p : List ℚ) (x : ℚ) : ℚ :=
  p.foldl (fun acc c => acc * x + c) 0

/-- Arguments of the fitting core of `colorColorPolyFitPlot`
(`colorAnalysis.py` lines 1207-1290).  `xx`/`yy` are the coordinate arrays
after the finite-filter of lines 1183-1184, hence plain rationals. -/
structure FitArgs where
  xx : List ℚ
  yy : List ℚ
  order : ℕ
  iterations : ℕ
  rej : ℚ
  xFitRange : Option (ℚ × ℚ)
  yFitRange : Option (ℚ × ℚ)
  fitLineUpper : Option (ℚ × ℚ)
  fitLineLower : Option (ℚ × ℚ)
  closeToVertical : Bool

/-- `selectXRange` as first computed (line 1208): all-ones without an
`xFitRange`, else the strict x-window membership mask. -/
def selXRange0 (a : FitArgs) : List Bool :=
  match a.xFitRange with
  | none => List.replicate a.xx.length true
  | some r => a.xx.map (fun x => decide (r.1 < x) && decide (x < r.2))

/-- `selectYRange` as first computed (line 1211). -/
def selYRange0 (a : FitArgs) : List Bool :=
  match a.yFitRange with
  | none => List.replicate a.xx.length true
  | some r => a.yy.map (fun y => decide (r.1 < y) && decide (y < r.2))

/-- `selectUpper` (line 1213): membership below the upper bounding line. -/
def selUpperM (a : FitArgs) : List Bool :=
  match a.fitLineUpper with
  | none => List.replicate a.xx.length true
  | some bm => List.zipWith (fun y x => decide (y < bm.1 + bm.2 * x)) a.yy a.xx

/-- `selectLower` (line 1215): membership above the lower bounding line. -/
def selLowerM (a : FitArgs) : List Bool :=
  match a.fitLineLower with
  | none => List.replicate a.xx.length true
  | some bm => List.zipWith (fun y x => decide (bm.1 + bm.2 * x < y)) a.yy a.xx

/-- `selectXRange` after the one-time pad of the window by 7% of its span
(lines 1220-1221 and 1246); unchanged when there is no `xFitRange`. -/
def selXPadded (a : FitArgs) : List Bool :=
  match a.xFitRange with
  | none => List.replicate a.xx.length true
  | some r =>
    a.xx.map (fun x =>
      decide (r.1 - (7 / 100) * (r.2 - r.1) < x) && decide (x < r.2 + (7 / 100) * (r.2 - r.1)))

/-- `selectYRange` after the one-time 7% pad (lines 1223-1224 and 1247). -/
def selYPadded (a : FitArgs) : List Bool :=
  match a.yFitRange with
  | none => List.replicate a.xx.length true
  | some r =>
    a.yy.map (fun y =>
      decide (r.1 - (7 / 100) * (r.2 - r.1) < y) && decide (y < r.2 + (7 / 100) * (r.2 - r.1)))

/-- `select` before the pad (lines 1226-1228): ones intersected with the four
membership masks in source order. -/
def select0 (a : FitArgs) : List Bool :=
  andL (andL (andL (andL (List.replicate a.xx.length true) (selXRange0 a)) (selYRange0 a))
    (selUpperM a)) (selLowerM a)

/-- `select` after the one-time relaxation at the end of the first OLS
iteration (lines 1245-1249): the previous `select` further intersected with
the padded window masks and the (unchanged) line masks. -/
def select1 (a : FitArgs) : List Bool :=
  andL (andL (andL (andL (select0 a) (selXPadded a)) (selYPadded a)) (selUpperM a)) (selLowerM a)

/-- One iteration of the OLS clipping loop (lines 1237-1243): re-impose
`select`, fit (external `np.polyfit`, oracle `pf`), form vertical residuals,
clip at `rej*0.74*(Q3-Q1)` of the residuals of the fitted points, and
REPLACE the keep mask by the clip mask over all points. -/
def olsRound (pf : List ℚ → List ℚ → ℕ → List ℚ) (a : FitArgs)
    (sel keep : List Bool) : List Bool :=
  let k := andL keep sel
  let poly := pf (maskL a.xx k) (maskL a.yy k) a.order
  let dy := List.zipWith (fun y x => y - polyvalQ poly x) a.yy a.xx
  let clip := a.rej * (37 / 50) * (pctlQ (maskL dy k) 75 - pctlQ (maskL dy k) 25)
  dy.map (fun d => !(decide (clip < |d|)))

/-- The keep mask after `n` OLS iterations: iteration 0 consumes the
unpadded `select`, every later iteration the relaxed `select` (the pad is
applied at the end of the first iteration, lines 1245-1249). -/
def olsKeepN (pf : List ℚ → List ℚ → ℕ → List ℚ) (a : FitArgs) : ℕ → List Bool
  | 0 => List.replicate a.xx.length true
  | 1 => olsRound pf a (select0 a) (List.replicate a.xx.length true)
  | n + 2 => olsRound pf a (select1 a) (olsKeepN pf a (n + 1))

/-- The mask at the final OLS check (line 1252): the loop result once more
intersected with the current `select`. -/
def olsFinalMask (pf : List ℚ → List ℚ → ℕ → List ℚ) (a : FitArgs) : List Bool :=
  andL (olsKeepN pf a a.iterations) (if a.iterations = 0 then select0 a else select1 a)

/-- Failure modes of the embedded fit: the `RuntimeError` raised when fewer
points than the polynomial order survive (lines 1254-1256 and 1286-1289; the
spec names it InsufficientDataError, carrying the surviving count), and the
`TypeError` from subscripting a missing `xFitRange` at line 1235. -/
inductive FitError where
  | insufficientData : ℕ → FitError
  | missingXFitRange : FitError
deriving DecidableEq, Repr

/-- View of an `Except` value as a sum, to derive decidable equality. -/
def exceptToSum {ε α : Type} : Except ε α → ε ⊕ α
  | .error e => Sum.inl e
  | .ok a => Sum.inr a

instance {ε α : Type} [DecidableEq ε] [DecidableEq α] : DecidableEq (Except ε α) :=
  fun a b =>
    decidable_of_iff (exceptToSum a = exceptToSum b)
      (by cases a <;> cases b <;> simp [exceptToSum])

/-- The OLS stage of `colorColorPolyFitPlot` (lines 1230-1258): with
`closeToVertical` the loop is skipped and the polynomial forced to
`[10, -10*(x0 + (x1-x0)/3)]` from the `xFitRange` endpoints (line 1235
subscripts `xFitRange`, so a missing range fails there); otherwise the
clipping loop runs, the final mask is checked against `order`, and the
final OLS polynomial is fitted on it. -/
def olsStage (pf : List ℚ → List ℚ → ℕ → List ℚ) (a : FitArgs) :
    Except FitError (List ℚ × List Bool) :=
  if a.closeToVertical then
    match a.xFitRange with
    | none => .error .missingXFitRange
    | some r =>
      .ok ([10, -10 * (r.1 + (r.2 - r.1) / 3)],
        andL (List.replicate a.xx.length true) (select0 a))
  else
    let k := olsFinalMask pf a
    if countTrue k < a.order then .error (.insufficientData (countTrue k))
    else .ok (pf (maskL a.xx k) (maskL a.yy k) a.order, k)

/-- One iteration of the orthogonal-regression refinement loop (lines
1273-1290): residuals against the current coefficients, the same clip
formula, a REPLACED keep mask (the finiteness re-intersection of line 1278
is identically true on our pre-filtered domain), the four select masks
re-imposed in the first round only (lines 1280-1284, with the padded
windows), the under-population check, then the external solver
(`orthogonalRegression`, oracle `odr`) re-seeded with the reversed previous
coefficients. -/
def ortRound (odr : List ℚ → List ℚ → ℕ → List ℚ → List ℚ) (a : FitArgs)
    (applySel : Bool) (coeffs : List ℚ) (keepOdr : List Bool) :
    Except FitError (List ℚ × List Bool) :=
  let ig := coeffs.reverse
  let dy := List.zipWith (fun y x => y - polyvalQ coeffs x) a.yy a.xx
  let clip := a.rej * (37 / 50) *
    (pctlQ (maskL dy keepOdr) 75 - pctlQ (maskL dy keepOdr) 25)
  let k1 := dy.map (fun d => !(decide (clip < |d|)))
  let k2 := if applySel then
      andL (andL (andL (andL k1 (selXPadded a)) (selYPadded a)) (selUpperM a)) (selLowerM a)
    else k1
  if countTrue k2 < a.order then .error (.insufficientData (countTrue k2))
  else .ok (odr (maskL a.xx k2) (maskL a.yy k2) a.order ig, k2)

/-- The orthogonal-regression loop, running `n` rounds; only the first
round re-imposes the select masks. -/
def ortLoop (odr : List ℚ → List ℚ → ℕ → List ℚ → List ℚ) (a : FitArgs) :
    ℕ → Bool → List ℚ → List Bool → Except FitError (List ℚ × List Bool)
  | 0, _, coeffs, keepOdr => .ok (coeffs, keepOdr)
  | n + 1, first, coeffs, keepOdr =>
    match ortRound odr a first coeffs keepOdr with
    | .error e => .error e
    | .ok ck => ortLoop odr a n false ck.1 ck.2

/-- The orthogonal-regression stage (lines 1270-1291): seed the external
solver with the reversed OLS coefficients, then run `iterations - 1`
clip-and-refit rounds. -/
def ortStage (odr : List ℚ → List ℚ → ℕ → List ℚ → List ℚ) (a : FitArgs)
    (poly : List ℚ) (keep : List Bool) : Except FitError (List ℚ × List Bool) :=
  let c0 := odr (maskL a.xx keep) (maskL a.yy keep) a.order poly.reverse
  ortLoop odr a (a.iterations - 1) true c0 keep

/-- The whole fitting core of `colorColorPolyFitPlot` (spec operation
`fitStellarLocus`): OLS stage then orthogonal-regression stage, with the
insufficient-data errors of either stage aborting the call without a
result.  Plot rendering, density estimation and logging around it are I/O
glue, out of the embedded core. -/
def fitStellarLocus (pf : List ℚ → List ℚ → ℕ → List ℚ)
    (odr : List ℚ → List ℚ → ℕ → List ℚ → List ℚ) (a : FitArgs) :
    Except FitError (List ℚ × List Bool) :=
  match olsStage pf a with
  | .error e => .error e
  | .ok pk => ortStage odr a pk.1 pk.2

/-- Modelled from the documented semantics of `np.polyfit` at degree 1 (the
external least-squares collaborator): the closed-form ordinary
least-squares line, `[slope, intercept]` highest degree first.  Used only
to instantiate the `pf` oracle on concrete data. -/
def olsFit1 (xs ys : List ℚ) : List ℚ :=
  let n : ℚ := xs.length
  let sx := xs.sum
  let sy := ys.sum
  let sxy := (List.zipWith (fun x y => x * y) xs ys).sum
  let sxx := (xs.map (fun x => x * x)).sum
  let den := n * sxx - sx * sx
  if den = 0 then [0, 0]
  else [(n * sxy - sx * sy) / den, (sy * sxx - sx * sxy) / den]

/-- `np.polyder` for a highest-first coefficient list; `np.poly1d` of a
constant differentiates to the zero polynomial `[0]`. -/
def polyderQ (p : List ℚ) : List ℚ :=
  let d := p.length - 1
  if d = 0 then [0]
  else List.zipWith (fun c k => c * (k : ℚ)) (p.take d) ((List.range d).map (fun i => ((d - i : ℕ) : ℚ)))

/-- `np.poly1d` addition: align the highest-first lists on their constant
terms (pad the shorter with leading zeros) and add. -/
def polyAddQ (p q : List ℚ) : List ℚ :=
  let n := max p.length q.length
  List.zipWith (fun x y => x + y)
    (List.replicate (n - p.length) 0 ++ p) (List.replicate (n - q.length) 0 ++ q)

/-- `np.poly1d` multiplication (convolution of highest-first lists). -/
def polyMulQ (p q : List ℚ) : List ℚ :=
  if p.isEmpty || q.isEmpty then []
  else (List.range (p.length + q.length - 1)).map
    (fun k => ((List.range (k + 1)).map (fun i => p.getD i 0 * q.getD (k - i) 0)).sum)

/-- The stationarity polynomial built at line 1775:
`np.poly1d((1, -x)) + (poly - y) * polyder(poly)`, whose real roots are the
candidate x-coordinates of the nearest curve point. -/
def rootPoly (p : List ℚ) (x y : ℚ) : List ℚ :=
  polyAddQ [1, -x] (polyMulQ (polyAddQ p [-y]) (polyderQ p))

/-- Modelled from the spec: `distanceSquaredToPoly` lives in
`lsst.pipe.analysis.utils`, which is not under `src/`; per spec 4.5 it is
the squared Euclidean distance from `(x, y)` to the curve point
`(t, P(t))`. -/
def distanceSquaredToPoly (x y t : ℚ) (p : List ℚ) : ℚ :=
  (t - x) ^ 2 + (polyvalQ p t - y) ^ 2

/-- `np.polyval` lifted to a float argument (NaN maps to NaN). -/
def polyvalF (p : List ℚ) : F → F
  | F.nan => F.nan
  | F.val q => F.val (polyvalQ p q)

/-- Multiplication of a real-or-NaN value by a rational, NaN-propagating. -/
noncomputable def RF.mulQ : RF → ℚ → RF
  | RF.nan, _ => RF.nan
  | RF.val r, q => RF.val (r * q)

/-- `np.sqrt` on a float value: NaN stays NaN, negatives map to NaN. -/
noncomputable def sqrtF : F → RF
  | F.nan => RF.nan
  | F.val q => sqrtQF q

/-- The configuration of the `ColorColorDistance` functor
(`colorAnalysis.py` lines 1746-1761): polynomial (highest degree first),
unit scale, optional x-bounds and optional bounding lines. -/
structure CCDist where
  poly : List ℚ
  unitScale : ℚ
  xMin : Option ℚ
  xMax : Option ℚ
  fitLineUpper : Option (ℚ × ℚ)
  fitLineLower : Option (ℚ × ℚ)

/-- The skip guard of `ColorColorDistance.__call__` (lines 1769-1772): a
point is skipped (distance NaN) when a coordinate is non-finite, x falls
outside the optional bounds, or the point lies outside an optional bounding
line.  Comparisons with NaN are false, exactly as in the source, where the
finiteness tests short-circuit first. -/
def ccdGuard (c : CCDist) (x y : F) : Bool :=
  x.isNaN || y.isNaN ||
  (match c.xMin with
   | none => false
   | some m => F.gtb (F.val m) x) ||
  (match c.xMax with
   | none => false
   | some m => F.gtb x (F.val m)) ||
  (match c.fitLineUpper with
   | none => false
   | some bm => F.gtb y (F.add (F.val bm.1) (F.mul (F.val bm.2) x))) ||
  (match c.fitLineLower with
   | none => false
   | some bm => F.gtb (F.add (F.val bm.1) (F.mul (F.val bm.2) x)) y)

/-- The squared distance assigned to one unskipped point (lines 1775-1777):
minimum of `distanceSquaredToPoly` over the exactly-real roots returned by
the external root finder (oracle `rts`, modelling `np.roots` as a list of
complex numbers given as real/imaginary pairs).  An empty real-root list
makes Python's `min()` raise `ValueError`, modelled as the `Except` error;
the stationarity polynomial has odd degree, so a real root always exists
mathematically. -/
def ccdPointD2 (rts : List ℚ → List (ℚ × ℚ)) (c : CCDist) (x y : ℚ) : Except Unit ℚ :=
  let rs := (rts (rootPoly c.poly x y)).filterMap
    (fun ri => if ri.2 = 0 then some ri.1 else none)
  match rs with
  | [] => .error ()
  | t :: ts =>
    .ok ((ts.map (fun u => distanceSquaredToPoly x y u c.poly)).foldl min
      (distanceSquaredToPoly x y t c.poly))

/-- The per-point loop of `__call__` (lines 1768-1777), producing the
`distance2` array: guarded points get NaN, the rest the minimum squared
distance; the first root-finding failure aborts (as the uncaught Python
exception would). -/
def ccdLoop (rts : List ℚ → List (ℚ × ℚ)) (c : CCDist) :
    List (F × F) → Except Unit (List F)
  | [] => .ok []
  | p :: ps =>
    let d : Except Unit F :=
      if ccdGuard c p.1 p.2 then .ok F.nan
      else
        match p.1, p.2 with
        | F.val a, F.val b => (ccdPointD2 rts c a b).map F.val
        | _, _ => .ok F.nan
    match d with
    | .error e => .error e
    | .ok v =>
      match ccdLoop rts c ps with
      | .error e => .error e
      | .ok vs => .ok (v :: vs)

/-- Shallow embedding of `ColorColorDistance.__call__` (lines 1763-1778),
the spec's `evaluateCurveDistance`: colors are the pairwise band
differences, each point gets its guarded squared distance, and the result
is `sqrt(distance2) * where(yy >= P(xx), 1, -1) * unitScale` elementwise. -/
noncomputable def ccdCall (rts : List ℚ → List (ℚ × ℚ)) (c : CCDist)
    (cat1 cat2 cat3 : List F) : Except Unit (List RF) :=
  let xx := List.zipWith F.sub cat1 cat2
  let yy := List.zipWith F.sub cat2 cat3
  match ccdLoop rts c (List.zipWith (fun x y => (x, y)) xx yy) with
  | .error e => .error e
  | .ok d2s =>
    .ok (List.zipWith
      (fun d2 w => RF.mulQ (RF.mulQ (sqrtF d2) w) c.unitScale)
      d2s
      (List.zipWith (fun y x => if F.geb y (polyvalF c.poly x) then (1 : ℚ) else -1) yy xx))

/-! ### Helper lemmas on masks and lists -/

theorem getElem?_zipWith_some {α β γ : Type} (f : α → β → γ) :
    ∀ (l : List α) (m : List β) (i : ℕ) (a : α) (b : β),
      l[i]? = some a → m[i]? = some b → (List.zipWith f l m)[i]? = some (f a b) := by
  intro l
  induction l with
  | nil => intro m i a b ha _; simp at ha
  | cons x l ih =>
    intro m i a b ha hb
    cases m with
    | nil => simp at hb
    | cons y m =>
      cases i with
      | zero =>
        simp only [List.getElem?_cons_zero, Option.some_inj] at ha hb
        subst ha; subst hb
        simp
      | succ i =>
        simp only [List.getElem?_cons_succ] at ha hb
        simpa only [List.zipWith_cons_cons, List.getElem?_cons_succ] using ih m i a b ha hb

theorem getElem?_zipWith_inv {α β γ : Type} (f : α → β → γ) :
    ∀ (l : List α) (m : List β) (i : ℕ) (c : γ),
      (List.zipWith f l m)[i]? = some c →
        ∃ a b, l[i]? = some a ∧ m[i]? = some b ∧ c = f a b := by
  intro l
  induction l with
  | nil => intro m i c h; simp at h
  | cons x l ih =>
    intro m i c h
    cases m with
    | nil => simp at h
    | cons y m =>
      cases i with
      | zero =>
        refine ⟨x, y, by simp, by simp, ?_⟩
        simp only [List.zipWith_cons_cons, List.getElem?_cons_zero, Option.some_inj] at h
        exact h.symm
      | succ i =>
        simp only [List.zipWith_cons_cons, List.getElem?_cons_succ] at h
        simpa only [List.getElem?_cons_succ] using ih m i c h

theorem andL_true_at {u v : List Bool} {i : ℕ}
    (h : (andL u v)[i]? = some true) : u[i]? = some true ∧ v[i]? = some true := by
  have h2 : (List.zipWith (fun x y => x && y) u v)[i]? = some true := h
  obtain ⟨a, b, ha, hb, hc⟩ := getElem?_zipWith_inv (fun x y => x && y) u v i true h2
  cases a with
  | false => simp at hc
  | true =>
    cases b with
    | false => simp at hc
    | true => exact ⟨ha, hb⟩

theorem zip_getElem?_some {α β : Type} {xs : List α} {bs : List β} {i : ℕ}
    {a : α} {b : β} (hx : xs[i]? = some a) (hb : bs[i]? = some b) :
    (xs.zip bs)[i]? = some (a, b) := by
  have h2 : (List.zipWith Prod.mk xs bs)[i]? = some (a, b) :=
    getElem?_zipWith_some Prod.mk xs bs i a b hx hb
  simpa [List.zip_eq_zipWith] using h2

theorem mem_maskL {α : Type} {xs : List α} {bs : List Bool} {i : ℕ} {v : α}
    (hx : xs[i]? = some v) (hb : bs[i]? = some true) : v ∈ maskL xs bs :=
  List.mem_filterMap.mpr ⟨(v, true), List.getElem?_mem (zip_getElem?_some hx hb), by simp⟩

theorem maskL_mem_exists {α : Type} {xs : List α} {bs : List Bool} {v : α}
    (h : v ∈ maskL xs bs) : ∃ i : ℕ, xs[i]? = some v ∧ bs[i]? = some true := by
  obtain ⟨⟨w, c⟩, hmem, hv⟩ := List.mem_filterMap.mp h
  cases c with
  | false => simp at hv
  | true =>
    have hw : w = v := by simpa using hv
    subst hw
    obtain ⟨i, hi⟩ := List.mem_iff_getElem?.mp hmem
    rw [List.zip_eq_zipWith] at hi
    obtain ⟨a, b, ha, hb, hab⟩ := getElem?_zipWith_inv Prod.mk xs bs i (w, true) hi
    injection hab.symm with h1 h2
    subst h1; subst h2
    exact ⟨i, ha, hb⟩

theorem length_maskL {α : Type} :
    ∀ (xs : List α) (bs : List Bool), xs.length = bs.length →
      (maskL xs bs).length = countTrue bs := by
  intro xs
  induction xs with
  | nil =>
    intro bs h
    cases bs with
    | nil => rfl
    | cons b bs => simp at h
  | cons x xs ih =>
    intro bs h
    cases bs with
    | nil => simp at h
    | cons b bs =>
      have hrec := ih bs (by simpa using h)
      cases b with
      | false =>
        simpa [maskL, countTrue, List.zip, List.count_cons] using hrec
      | true =>
        simp [maskL, countTrue, List.zip, List.count_cons] at hrec ⊢
        omega

theorem listMean_of_nan_mem {l : List F} (h : F.nan ∈ l) : listMean l = F.nan := by
  have hne : l ≠ [] := List.ne_nil_of_mem h
  have hany : l.any F.isNaN = true := List.any_eq_true.mpr ⟨F.nan, h, rfl⟩
  simp [listMean, hany, List.isEmpty_iff, hne]

theorem countTrue_pos_of_getElem {bs : List Bool} {i : ℕ}
    (h : bs[i]? = some true) : 0 < countTrue bs :=
  List.count_pos_iff.mpr (List.getElem?_mem h)

theorem exists_true_of_countTrue_pos {bs : List Bool} (h : 0 < countTrue bs) :
    ∃ i : ℕ, bs[i]? = some true :=
  List.mem_iff_getElem?.mp (List.count_pos_iff.mp h)

/-! ### Claim theorems -/

/-- Claim C9 (confirmed): with zero selected points, `calculateStats` returns
(without raising) a result with `numUsed = 0`, `total = 0` and NaN mean,
stdev (stated on its radicand `stdevSq`), median and clip threshold. -/
theorem calculateStats_zero_selected (clipCfg : ℚ) (quantity : List F)
    (selection : List Bool) (forcedMean : Option F)
    (h : countTrue selection = 0) :
    (calculateStats clipCfg quantity selection forcedMean).num = 0 ∧
    (calculateStats clipCfg quantity selection forcedMean).total = 0 ∧
    (calculateStats clipCfg quantity selection forcedMean).mean = F.nan ∧
    (calculateStats clipCfg quantity selection forcedMean).stdevSq = F.nan ∧
    (calculateStats clipCfg quantity selection forcedMean).median = F.nan ∧
    (calculateStats clipCfg quantity selection forcedMean).clip = F.nan := by
  simp [calculateStats, h]

/-- Witness for C9 at a concrete input. -/
theorem calculateStats_zero_selected_witness :
    countTrue [false, false] = 0 ∧
    ((calculateStats 4 [F.val 1, F.val 2] [false, false] none).num = 0 ∧
     (calculateStats 4 [F.val 1, F.val 2] [false, false] none).total = 0 ∧
     (calculateStats 4 [F.val 1, F.val 2] [false, false] none).mean = F.nan ∧
     (calculateStats 4 [F.val 1, F.val 2] [false, false] none).stdevSq = F.nan ∧
     (calculateStats 4 [F.val 1, F.val 2] [false, false] none).median = F.nan ∧
     (calculateStats 4 [F.val 1, F.val 2] [false, false] none).clip = F.nan) :=
  ⟨by decide, calculateStats_zero_selected 4 [F.val 1, F.val 2] [false, false] none (by decide)⟩

unseal Rat.add Rat.mul Rat.inv Rat.sub in
/-- Counterexample to C1 as stated: with `forcedMean = 10` supplied, the
reported mean field is the arithmetic mean 1 of the used values `[0, 2]`,
not the forced mean 10; the forced mean enters only the stdev radicand
(`((0-10)^2 + (2-10)^2)/2 = 82`). -/
theorem calculateStats_forced_mean_not_reported :
    (calculateStats 4 [F.val 0, F.val 2] [true, true] (some (F.val 10))).mean = F.val 1 ∧
    (calculateStats 4 [F.val 0, F.val 2] [true, true] (some (F.val 10))).mean ≠ F.val 10 ∧
    (calculateStats 4 [F.val 0, F.val 2] [true, true] (some (F.val 10))).stdevSq = F.val 82 := by
  decide

/-- Claim C1 (amended): the reported mean always equals the arithmetic mean
of the used values, even when `forcedMean` is supplied (the forced mean is
reported only in the separate `forcedMean` field); the reported stdev is
the RMS deviation of the used values about the active mean — `forcedMean`
when supplied, the arithmetic mean otherwise (stated on the radicand
`stdevSq`, the mean squared deviation). -/
theorem calculateStats_reported_mean_and_stdev (clipCfg : ℚ) (quantity : List F)
    (selection : List Bool) (forcedMean : Option F)
    (h : 0 < countTrue selection) :
    (calculateStats clipCfg quantity selection forcedMean).mean =
      listMean (maskL quantity (calculateStats clipCfg quantity selection forcedMean).dataUsed) ∧
    (calculateStats clipCfg quantity selection forcedMean).stdevSq =
      listMean ((maskL quantity (calculateStats clipCfg quantity selection forcedMean).dataUsed).map
        (fun v =>
          F.mul
            (F.sub v (forcedMean.getD (calculateStats clipCfg quantity selection forcedMean).mean))
            (F.sub v (forcedMean.getD (calculateStats clipCfg quantity selection forcedMean).mean)))) := by
  have hne : ¬(countTrue selection = 0) := Nat.pos_iff_ne_zero.mp h
  constructor <;> simp [calculateStats, hne]

/-- Witness for the amended C1 at a concrete input. -/
theorem calculateStats_reported_mean_and_stdev_witness :
    0 < countTrue [true, true] ∧
    ((calculateStats 4 [F.val 0, F.val 2] [true, true] (some (F.val 10))).mean =
      listMean (maskL [F.val 0, F.val 2]
        (calculateStats 4 [F.val 0, F.val 2] [true, true] (some (F.val 10))).dataUsed) ∧
     (calculateStats 4 [F.val 0, F.val 2] [true, true] (some (F.val 10))).stdevSq =
      listMean ((maskL [F.val 0, F.val 2]
          (calculateStats 4 [F.val 0, F.val 2] [true, true] (some (F.val 10))).dataUsed).map
        (fun v =>
          F.mul
            (F.sub v ((some (F.val 10)).getD
              (calculateStats 4 [F.val 0, F.val 2] [true, true] (some (F.val 10))).mean))
            (F.sub v ((some (F.val 10)).getD
              (calculateStats 4 [F.val 0, F.val 2] [true, true] (some (F.val 10))).mean))))) :=
  ⟨by decide,
    calculateStats_reported_mean_and_stdev 4 [F.val 0, F.val 2] [true, true]
      (some (F.val 10)) (by decide)⟩

unseal Rat.add Rat.mul Rat.inv Rat.sub in
/-- Counterexample to C4 as stated: a selected NaN entry is not excluded —
it lands in the used set (`dataUsed` is all-true, `numUsed = 4`) and the
mean becomes NaN instead of being computed with the NaN excluded. -/
theorem calculateStats_nan_entry_in_used_set :
    (calculateStats 4 [F.val 0, F.val 1, F.val 2, F.nan]
        [true, true, true, true] none).dataUsed = [true, true, true, true] ∧
    (calculateStats 4 [F.val 0, F.val 1, F.val 2, F.nan]
        [true, true, true, true] none).num = 4 ∧
    (calculateStats 4 [F.val 0, F.val 1, F.val 2, F.nan]
        [true, true, true, true] none).mean = F.nan := by
  decide

/-- Claim C4 (amended): NaN entries are NOT excluded from the used set: a
selected NaN entry always passes the clip filter (both comparisons against
NaN are false and the filter is `not (.. > ..)`), so it is in `dataUsed`
and drives the reported mean to NaN; NaN entries are only kept out of the
statistics when the selection mask itself excludes them. -/
theorem calculateStats_nan_entries_kept (clipCfg : ℚ) (quantity : List F)
    (selection : List Bool) (forcedMean : Option F) (i : ℕ)
    (h : 0 < countTrue selection)
    (hq : quantity[i]? = some F.nan) (hs : selection[i]? = some true) :
    (calculateStats clipCfg quantity selection forcedMean).dataUsed[i]? = some true ∧
    (calculateStats clipCfg quantity selection forcedMean).mean = F.nan := by
  have hne : ¬(countTrue selection = 0) := Nat.pos_iff_ne_zero.mp h
  have hz : (selection.zip quantity)[i]? = some (true, F.nan) :=
    zip_getElem?_some hs hq
  constructor
  · simp only [calculateStats, hne, if_false]
    rw [List.getElem?_map, hz]
    simp [F.sub, F.fabs, F.gtb]
  · simp only [calculateStats, hne, if_false]
    apply listMean_of_nan_mem
    apply mem_maskL hq
    rw [List.getElem?_map, hz]
    simp [F.sub, F.fabs, F.gtb]

/-- Witness for the amended C4 at a concrete input. -/
theorem calculateStats_nan_entries_kept_witness :
    0 < countTrue [true, true, true, true] ∧
    [F.val 0, F.val 1, F.val 2, F.nan][3]? = some F.nan ∧
    [true, true, true, true][3]? = some true ∧
    ((calculateStats 4 [F.val 0, F.val 1, F.val 2, F.nan]
        [true, true, true, true] none).dataUsed[3]? = some true ∧
     (calculateStats 4 [F.val 0, F.val 1, F.val 2, F.nan]
        [true, true, true, true] none).mean = F.nan) :=
  ⟨by decide, by decide, by decide,
    calculateStats_nan_entries_kept 4 [F.val 0, F.val 1, F.val 2, F.nan]
      [true, true, true, true] none 3 (by decide) (by decide) (by decide)⟩

/-- Claim C8 (confirmed): `calculateSysError` never raises; solver failure
yields NaN (the warning print is I/O), and a convergent root `x >= 0` yields
the square root of the root: a non-negative real whose square is `x`. -/
theorem calculateSysError_result_spec :
    calculateSysError RootResult.fail = RF.nan ∧
    ∀ x : ℚ, 0 ≤ x → ∃ a : ℝ,
      calculateSysError (RootResult.found x) = RF.val a ∧ 0 ≤ a ∧ a ^ 2 = (x : ℝ) := by
  refine ⟨rfl, fun x hx => ⟨Real.sqrt x, ?_, Real.sqrt_nonneg _, ?_⟩⟩
  · simp [calculateSysError, sqrtQF, not_lt.mpr hx]
  · exact Real.sq_sqrt (by exact_mod_cast hx)

/-- Witness for C8 at the concrete root 4. -/
theorem calculateSysError_result_spec_witness :
    calculateSysError RootResult.fail = RF.nan ∧
    (0 ≤ (4 : ℚ) ∧ ∃ a : ℝ,
      calculateSysError (RootResult.found 4) = RF.val a ∧ 0 ≤ a ∧ a ^ 2 = ((4 : ℚ) : ℝ)) :=
  ⟨calculateSysError_result_spec.1, by norm_num, calculateSysError_result_spec.2 4 (by norm_num)⟩

/-- Claim C10 (confirmed): calling the fit with the near-vertical flag set
and no x fit-range fails (the source subscripts `xFitRange` at line 1235)
before any coefficients are produced, whatever the solver oracles do. -/
theorem fitStellarLocus_vertical_requires_xrange
    (pf : List ℚ → List ℚ → ℕ → List ℚ) (odr : List ℚ → List ℚ → ℕ → List ℚ → List ℚ)
    (a : FitArgs) (hv : a.closeToVertical = true) (hr : a.xFitRange = none) :
    fitStellarLocus pf odr a = Except.error FitError.missingXFitRange := by
  simp [fitStellarLocus, olsStage, hv, hr]

/-- Witness for C10 at a concrete argument record. -/
theorem fitStellarLocus_vertical_requires_xrange_witness :
    ({ xx := [0, 1], yy := [0, 1], order := 1, iterations := 3, rej := 3,
       xFitRange := none, yFitRange := none, fitLineUpper := none,
       fitLineLower := none, closeToVertical := true } : FitArgs).closeToVertical = true ∧
    ({ xx := [0, 1], yy := [0, 1], order := 1, iterations := 3, rej := 3,
       xFitRange := none, yFitRange := none, fitLineUpper := none,
       fitLineLower := none, closeToVertical := true } : FitArgs).xFitRange = none ∧
    fitStellarLocus (fun xs ys _ => olsFit1 xs ys) (fun _ _ _ ig => ig)
      { xx := [0, 1], yy := [0, 1], order := 1, iterations := 3, rej := 3,
        xFitRange := none, yFitRange := none, fitLineUpper := none,
        fitLineLower := none, closeToVertical := true } =
      Except.error FitError.missingXFitRange :=
  ⟨rfl, rfl,
    fitStellarLocus_vertical_requires_xrange (fun xs ys _ => olsFit1 xs ys) (fun _ _ _ ig => ig)
      _ rfl rfl⟩

/-- Claim C6 (confirmed): with the near-vertical flag, no ordinary
least-squares iterations are performed — the whole fit is independent of
the `np.polyfit` oracle — and the orthogonal-regression refinement is
seeded by the steep polynomial `[10, -10*(x0 + (x1-x0)/3)]` determined by
the caller's `xFitRange` (the slope is the fixed steep value `10`, the
intercept places the near-vertical line a third of the way across the
caller's x fit-range). -/
theorem fitStellarLocus_vertical_seed (pf1 pf2 : List ℚ → List ℚ → ℕ → List ℚ)
    (odr : List ℚ → List ℚ → ℕ → List ℚ → List ℚ) (a : FitArgs) (x0 x1 : ℚ)
    (hv : a.closeToVertical = true) (hr : a.xFitRange = some (x0, x1)) :
    olsStage pf1 a = Except.ok ([10, -10 * (x0 + (x1 - x0) / 3)],
      andL (List.replicate a.xx.length true) (select0 a)) ∧
    fitStellarLocus pf1 odr a = fitStellarLocus pf2 odr a ∧
    fitStellarLocus pf1 odr a = ortStage odr a [10, -10 * (x0 + (x1 - x0) / 3)]
      (andL (List.replicate a.xx.length true) (select0 a)) := by
  refine ⟨?_, ?_, ?_⟩ <;> simp [fitStellarLocus, olsStage, hv, hr]

/-- A concrete near-vertical argument record for witnesses. -/
def vertArgs : FitArgs :=
  { xx := [0, 1], yy := [0, 5], order := 1, iterations := 1, rej := 3,
    xFitRange := some (1, 4), yFitRange := none, fitLineUpper := none,
    fitLineLower := none, closeToVertical := true }

/-- Witness for C6 at a concrete argument record. -/
theorem fitStellarLocus_vertical_seed_witness :
    vertArgs.closeToVertical = true ∧ vertArgs.xFitRange = some (1, 4) ∧
    olsStage (fun xs ys _ => olsFit1 xs ys) vertArgs =
      Except.ok ([10, -10 * (1 + (4 - 1) / 3)],
        andL (List.replicate vertArgs.xx.length true) (select0 vertArgs)) :=
  ⟨rfl, rfl,
    (fitStellarLocus_vertical_seed (fun xs ys _ => olsFit1 xs ys)
      (fun _ _ _ => []) (fun _ _ _ ig => ig) vertArgs 1 4 rfl rfl).1⟩

/-- Every error of one orthogonal-regression round is an insufficient-data
error whose reported count is below the required order. -/
theorem insufficient_check_error {o : ℕ} {k : List Bool} {g : List ℚ × List Bool}
    {e : FitError}
    (h : (if countTrue k < o then
        Except.error (FitError.insufficientData (countTrue k))
      else Except.ok g) = Except.error e) :
    ∃ m : ℕ, e = FitError.insufficientData m ∧ m < o := by
  split at h
  next hc =>
    refine ⟨countTrue k, ?_, hc⟩
    injection h with h2
    exact h2.symm
  next => simp at h

theorem ortRound_error_shape (odr : List ℚ → List ℚ → ℕ → List ℚ → List ℚ)
    (a : FitArgs) (first : Bool) (coeffs : List ℚ) (keep : List Bool)
    {e : FitError} (h : ortRound odr a first coeffs keep = Except.error e) :
    ∃ m : ℕ, e = FitError.insufficientData m ∧ m < a.order := by
  simp only [ortRound] at h
  exact insufficient_check_error h

/-- The orthogonal-regression loop either succeeds or fails with an
insufficient-data error reporting a surviving count below the order. -/
theorem ortLoop_shape (odr : List ℚ → List ℚ → ℕ → List ℚ → List ℚ) (a : FitArgs) :
    ∀ (n : ℕ) (first : Bool) (coeffs : List ℚ) (keep : List Bool),
      (∃ r, ortLoop odr a n first coeffs keep = Except.ok r) ∨
      (∃ m, ortLoop odr a n first coeffs keep =
          Except.error (FitError.insufficientData m) ∧ m < a.order) := by
  intro n
  induction n with
  | zero => intro first coeffs keep; exact Or.inl ⟨(coeffs, keep), rfl⟩
  | succ n ih =>
    intro first coeffs keep
    rcases hE : ortRound odr a first coeffs keep with e | ck
    · obtain ⟨m, hm, hlt⟩ := ortRound_error_shape odr a first coeffs keep hE
      subst hm
      exact Or.inr ⟨m, by simp [ortLoop, hE], hlt⟩
    · rcases ih false ck.1 ck.2 with ⟨r, hr⟩ | ⟨m, hm, hlt⟩
      · exact Or.inl ⟨r, by simp [ortLoop, hE, hr]⟩
      · exact Or.inr ⟨m, by simp [ortLoop, hE, hm], hlt⟩

/-- The OLS stage either succeeds or fails with an insufficient-data error
reporting a surviving count below the order (given that the near-vertical
branch has its x fit-range). -/
theorem olsStage_shape (pf : List ℚ → List ℚ → ℕ → List ℚ) (a : FitArgs)
    (hx : a.closeToVertical = true → a.xFitRange ≠ none) :
    (∃ r, olsStage pf a = Except.ok r) ∨
    (∃ m, olsStage pf a = Except.error (FitError.insufficientData m) ∧ m < a.order) := by
  by_cases hv : a.closeToVertical = true
  · rcases hr : a.xFitRange with _ | r
    · exact absurd hr (hx hv)
    · exact Or.inl ⟨([10, -10 * (r.1 + (r.2 - r.1) / 3)],
        andL (List.replicate a.xx.length true) (select0 a)),
        by simp [olsStage, hv, hr]⟩
  · have hv2 : a.closeToVertical = false := by
      rcases hb : a.closeToVertical with _ | _
      · rfl
      · exact absurd hb hv
    by_cases hc : countTrue (olsFinalMask pf a) < a.order
    · exact Or.inr ⟨countTrue (olsFinalMask pf a), by simp [olsStage, hv2, hc], hc⟩
    · exact Or.inl ⟨(pf (maskL a.xx (olsFinalMask pf a)) (maskL a.yy (olsFinalMask pf a))
        a.order, olsFinalMask pf a), by simp [olsStage, hv2, hc]⟩

/-- Claim C7 (confirmed): the fit raises the insufficient-data error exactly
at the under-population checks — every failure of the whole fit is an
insufficient-data error whose reported surviving count is below the
polynomial order `d` (so runs whose checks all see at least `d` surviving
points return a result and never raise), the failing call returns no
partial fit (the `Except` carries no coefficients), and in the standard
branch the final OLS check triggers the error exactly when the final mask
holds fewer than `d` points. -/
theorem fitStellarLocus_insufficient_data (pf : List ℚ → List ℚ → ℕ → List ℚ)
    (odr : List ℚ → List ℚ → ℕ → List ℚ → List ℚ) (a : FitArgs)
    (hx : a.closeToVertical = true → a.xFitRange ≠ none) :
    ((∃ r, fitStellarLocus pf odr a = Except.ok r) ∨
     (∃ m, fitStellarLocus pf odr a = Except.error (FitError.insufficientData m) ∧
        m < a.order)) ∧
    (a.closeToVertical = false → countTrue (olsFinalMask pf a) < a.order →
      fitStellarLocus pf odr a =
        Except.error (FitError.insufficientData (countTrue (olsFinalMask pf a)))) := by
  constructor
  · rcases olsStage_shape pf a hx with ⟨r, hr⟩ | ⟨m, hm, hlt⟩
    · have hfit : fitStellarLocus pf odr a =
          ortLoop odr a (a.iterations - 1) true
            (odr (maskL a.xx r.2) (maskL a.yy r.2) a.order r.1.reverse) r.2 := by
        simp [fitStellarLocus, hr, ortStage]
      rcases ortLoop_shape odr a (a.iterations - 1) true
          (odr (maskL a.xx r.2) (maskL a.yy r.2) a.order r.1.reverse) r.2 with
        ⟨s, hs⟩ | ⟨m, hm, hlt⟩
      · exact Or.inl ⟨s, by rw [hfit, hs]⟩
      · exact Or.inr ⟨m, by rw [hfit, hm], hlt⟩
    · exact Or.inr ⟨m, by simp [fitStellarLocus, hm], hlt⟩
  · intro hv hc
    simp [fitStellarLocus, olsStage, hv, hc]

/-- A concrete standard-branch argument record for witnesses. -/
def lineArgs : FitArgs :=
  { xx := [0, 1, 2], yy := [0, 1, 2], order := 1, iterations := 2, rej := 3,
    xFitRange := none, yFitRange := none, fitLineUpper := none,
    fitLineLower := none, closeToVertical := false }

/-- Witness for C7 at a concrete standard-branch call. -/
theorem fitStellarLocus_insufficient_data_witness :
    ((∃ r, fitStellarLocus (fun xs ys _ => olsFit1 xs ys) (fun _ _ _ ig => ig) lineArgs =
        Except.ok r) ∨
     (∃ m, fitStellarLocus (fun xs ys _ => olsFit1 xs ys) (fun _ _ _ ig => ig) lineArgs =
        Except.error (FitError.insufficientData m) ∧ m < lineArgs.order)) ∧
    (lineArgs.closeToVertical = false →
      countTrue (olsFinalMask (fun xs ys _ => olsFit1 xs ys) lineArgs) < lineArgs.order →
      fitStellarLocus (fun xs ys _ => olsFit1 xs ys) (fun _ _ _ ig => ig) lineArgs =
        Except.error (FitError.insufficientData
          (countTrue (olsFinalMask (fun xs ys _ => olsFit1 xs ys) lineArgs)))) :=
  fitStellarLocus_insufficient_data (fun xs ys _ => olsFit1 xs ys) (fun _ _ _ ig => ig)
    lineArgs (fun h => absurd h (by decide))

/-- Concrete data exercising the OLS clipping loop: five collinear points
on `y = x`, a far collinear point `(20, 20)` at index 5, and a gross
outlier `(10, -40)` at index 6; degree 1, two iterations, no fit region. -/
def reentryArgs : FitArgs :=
  { xx := [0, 1, 2, 3, 4, 20, 10], yy := [0, 1, 2, 3, 4, 20, -40],
    order := 1, iterations := 2, rej := 3,
    xFitRange := none, yFitRange := none, fitLineUpper := none,
    fitLineLower := none, closeToVertical := false }

/-- The degree-1 least-squares oracle instance used for concrete runs. -/
def reentryPf : List ℚ → List ℚ → ℕ → List ℚ := fun xs ys _ => olsFit1 xs ys

unseal Rat.add Rat.mul Rat.inv Rat.sub in
/-- Counterexample to C3 as stated: on `reentryArgs` (which has no fit
region, so the one-time relaxation is vacuous), the collinear point at
index 5 is rejected by the first clipping round — the outlier-skewed first
fit gives it a residual beyond the clip — yet it re-enters the keep mask in
the second round (the round REPLACES the mask instead of intersecting) and
participates in the final fit: the keep mask after round 2 is not a subset
of the mask after round 1. -/
theorem olsStage_rejected_point_reenters :
    (olsKeepN reentryPf reentryArgs 1)[5]? = some false ∧
    (olsKeepN reentryPf reentryArgs 2)[5]? = some true ∧
    olsStage reentryPf reentryArgs =
      Except.ok ([1, 0], [true, true, true, true, true, true, false]) := by
  decide

/-- Claim C3 (amended): an OLS clipping round REPLACES the keep mask by the
clip mask of the current residuals (over all points) instead of
intersecting it with the previous mask, so a once-rejected point re-enters
whenever its residual against a later fit is within that round's
threshold.  What does hold: the mask at the final check is the loop mask
intersected with the (once-relaxed) select mask, hence a subset of the
relaxed select mask; and a round's output depends on the previous mask
only through the fitted subset `keep ∧ select`. -/
theorem olsStage_keep_characterization (pf : List ℚ → List ℚ → ℕ → List ℚ)
    (a : FitArgs) (poly : List ℚ) (keep : List Bool)
    (hv : a.closeToVertical = false) (hit : 1 ≤ a.iterations)
    (hok : olsStage pf a = Except.ok (poly, keep)) :
    keep = andL (olsKeepN pf a a.iterations) (select1 a) ∧
    (∀ i : ℕ, keep[i]? = some true → (select1 a)[i]? = some true) ∧
    (∀ (sel k1 k2 : List Bool), andL k1 sel = andL k2 sel →
      olsRound pf a sel k1 = olsRound pf a sel k2) := by
  have hit0 : ¬(a.iterations = 0) := by omega
  have hmask : olsFinalMask pf a = andL (olsKeepN pf a a.iterations) (select1 a) := by
    simp [olsFinalMask, hit0]
  have hkeep : keep = olsFinalMask pf a := by
    by_cases hc : countTrue (olsFinalMask pf a) < a.order
    · simp [olsStage, hv, hc] at hok
    · simp [olsStage, hv, hc] at hok
      exact hok.2.symm
  refine ⟨hkeep.trans hmask, ?_, ?_⟩
  · intro i hi
    rw [hkeep.trans hmask] at hi
    exact (andL_true_at hi).2
  · intro sel k1 k2 hEq
    simp only [olsRound, hEq]

unseal Rat.add Rat.mul Rat.inv Rat.sub in
/-- Witness for the amended C3 on the concrete re-entry data. -/
theorem olsStage_keep_characterization_witness :
    reentryArgs.closeToVertical = false ∧ 1 ≤ reentryArgs.iterations ∧
    ([true, true, true, true, true, true, false] =
        andL (olsKeepN reentryPf reentryArgs reentryArgs.iterations) (select1 reentryArgs) ∧
      (∀ i : ℕ, ([true, true, true, true, true, true, false] : List Bool)[i]? = some true →
        (select1 reentryArgs)[i]? = some true) ∧
      (∀ (sel k1 k2 : List Bool), andL k1 sel = andL k2 sel →
        olsRound reentryPf reentryArgs sel k1 = olsRound reentryPf reentryArgs sel k2)) :=
  ⟨rfl, by decide,
    olsStage_keep_characterization reentryPf reentryArgs [1, 0]
      [true, true, true, true, true, true, false] rfl (by decide) (by decide)⟩

/-- A point's squared-distance computation succeeds whenever the root
finder returns at least one exactly-real root. -/
theorem ccdPointD2_ok (rts : List ℚ → List (ℚ × ℚ)) (c : CCDist) (x y : ℚ)
    (hne : ((rts (rootPoly c.poly x y)).filterMap
      (fun ri => if ri.2 = 0 then some ri.1 else none)) ≠ []) :
    ∃ q : ℚ, ccdPointD2 rts c x y = Except.ok q := by
  obtain ⟨t, ts, hts⟩ := List.exists_cons_of_ne_nil hne
  exact ⟨(ts.map (fun u => distanceSquaredToPoly x y u c.poly)).foldl min
    (distanceSquaredToPoly x y t c.poly), by simp [ccdPointD2, hts]⟩

/-- The per-point loop succeeds on every input when the root finder always
returns a real root, its output has one entry per point, and guarded
points map to NaN. -/
theorem ccdLoop_ok (rts : List ℚ → List (ℚ × ℚ)) (c : CCDist)
    (hroots : ∀ p : List ℚ,
      ((rts p).filterMap (fun ri => if ri.2 = 0 then some ri.1 else none)) ≠ []) :
    ∀ ps : List (F × F), ∃ l : List F,
      ccdLoop rts c ps = Except.ok l ∧ l.length = ps.length ∧
      ∀ (i : ℕ) (p : F × F), ps[i]? = some p → ccdGuard c p.1 p.2 = true →
        l[i]? = some F.nan := by
  intro ps
  induction ps with
  | nil => exact ⟨[], rfl, rfl, by intro i p hp; simp at hp⟩
  | cons p ps ih =>
    obtain ⟨l, hl, hlen, hg⟩ := ih
    have hhead : ∃ v : F, (if ccdGuard c p.1 p.2 then Except.ok F.nan
        else
          match p.1, p.2 with
          | F.val a, F.val b => (ccdPointD2 rts c a b).map F.val
          | _, _ => Except.ok F.nan) = Except.ok v ∧
        (ccdGuard c p.1 p.2 = true → v = F.nan) := by
      by_cases hgd : ccdGuard c p.1 p.2 = true
      · exact ⟨F.nan, by simp [hgd], fun _ => rfl⟩
      · rcases p with ⟨x, y⟩
        rcases x with _ | xa
        · exact ⟨F.nan, by simp [hgd], fun hc => absurd hc hgd⟩
        · rcases y with _ | ya
          · exact ⟨F.nan, by simp [hgd], fun hc => absurd hc hgd⟩
          · obtain ⟨q, hq⟩ := ccdPointD2_ok rts c xa ya (hroots _)
            exact ⟨F.val q, by simp [hgd, hq, Except.map], fun hc => absurd hc hgd⟩
    obtain ⟨v, hv, hvnan⟩ := hhead
    refine ⟨v :: l, ?_, by simp [hlen], ?_⟩
    · simp only [ccdLoop]
      rw [hv, hl]
    · intro i q hq hqg
      cases i with
      | zero =>
        simp only [List.getElem?_cons_zero, Option.some_inj] at hq
        subst hq
        simp [hvnan hqg]
      | succ i =>
        simp only [List.getElem?_cons_succ] at hq ⊢
        exact hg i q hq hqg

/-- Claim C5 (confirmed): `evaluateCurveDistance` is total and propagates no
exception — provided the external root finder returns at least one
exactly-real root, which is mathematically guaranteed because the
stationarity polynomial has odd degree (an empty real-root list would make
Python's `min()` raise, which the `Except` error models).  The output has
exactly one entry per input point, and every point with a non-finite
coordinate, outside the optional x-bounds, or outside the optional
bounding lines receives the distance NaN. -/
theorem ccdCall_total_guard_nan (rts : List ℚ → List (ℚ × ℚ)) (c : CCDist)
    (cat1 cat2 cat3 : List F)
    (h12 : cat1.length = cat2.length) (h23 : cat2.length = cat3.length)
    (hroots : ∀ p : List ℚ,
      ((rts p).filterMap (fun ri => if ri.2 = 0 then some ri.1 else none)) ≠ []) :
    ∃ out : List RF, ccdCall rts c cat1 cat2 cat3 = Except.ok out ∧
      out.length = cat1.length ∧
      ∀ (i : ℕ) (x y : F),
        (List.zipWith F.sub cat1 cat2)[i]? = some x →
        (List.zipWith F.sub cat2 cat3)[i]? = some y →
        ccdGuard c x y = true → out[i]? = some RF.nan := by
  obtain ⟨l, hl, hlen, hg⟩ := ccdLoop_ok rts c hroots
    (List.zipWith (fun x y => (x, y)) (List.zipWith F.sub cat1 cat2)
      (List.zipWith F.sub cat2 cat3))
  have hxx : (List.zipWith F.sub cat1 cat2).length = cat1.length := by
    rw [List.length_zipWith, ← h12, min_self]
  have hyy : (List.zipWith F.sub cat2 cat3).length = cat1.length := by
    rw [List.length_zipWith, ← h23, ← h12, min_self]
  have hplen : l.length = cat1.length := by
    rw [hlen, List.length_zipWith, hxx, hyy, min_self]
  refine ⟨List.zipWith (fun d2 w => RF.mulQ (RF.mulQ (sqrtF d2) w) c.unitScale) l
      (List.zipWith (fun y x => if F.geb y (polyvalF c.poly x) then (1 : ℚ) else -1)
        (List.zipWith F.sub cat2 cat3) (List.zipWith F.sub cat1 cat2)),
    ?_, ?_, ?_⟩
  · simp only [ccdCall]
    rw [hl]
  · rw [List.length_zipWith, hplen, List.length_zipWith, hxx, hyy, min_self, min_self]
  · intro i x y hx hy hgd
    have hp : (List.zipWith (fun x y => (x, y)) (List.zipWith F.sub cat1 cat2)
        (List.zipWith F.sub cat2 cat3))[i]? = some (x, y) :=
      getElem?_zipWith_some (fun x y => (x, y)) _ _ i x y hx hy
    have hli : l[i]? = some F.nan := hg i (x, y) hp hgd
    have hw : (List.zipWith (fun y x => if F.geb y (polyvalF c.poly x) then (1 : ℚ) else -1)
        (List.zipWith F.sub cat2 cat3) (List.zipWith F.sub cat1 cat2))[i]? =
        some (if F.geb y (polyvalF c.poly x) then (1 : ℚ) else -1) :=
      getElem?_zipWith_some _ _ _ i y x hy hx
    have := getElem?_zipWith_some
      (fun d2 w => RF.mulQ (RF.mulQ (sqrtF d2) w) c.unitScale) l _ i F.nan
      (if F.geb y (polyvalF c.poly x) then (1 : ℚ) else -1) hli hw
    rw [this]
    simp [sqrtF, RF.mulQ]

/-- The linear-locus configuration used by the C5 witness. -/
def lineCCD : CCDist :=
  { poly := [1, 0], unitScale := 1, xMin := none, xMax := none,
    fitLineUpper := none, fitLineLower := none }

/-- The constant root oracle used by the C5 witness: one real root at 0. -/
def zeroRootO : List ℚ → List (ℚ × ℚ) := fun _ => [((0 : ℚ), (0 : ℚ))]

/-- Witness for C5: the constant root oracle, a linear polynomial and three
two-point bands whose second point has a NaN first-band magnitude. -/
theorem ccdCall_total_guard_nan_witness :
    ([F.val 3, F.nan] : List F).length = ([F.val 1, F.val 1] : List F).length ∧
    ([F.val 1, F.val 1] : List F).length = ([F.val 0, F.val 0] : List F).length ∧
    (∀ p : List ℚ, ((zeroRootO p).filterMap
      (fun ri => if ri.2 = 0 then some ri.1 else none)) ≠ []) ∧
    ∃ out : List RF,
      ccdCall zeroRootO lineCCD [F.val 3, F.nan] [F.val 1, F.val 1] [F.val 0, F.val 0] =
        Except.ok out ∧
      out.length = ([F.val 3, F.nan] : List F).length ∧
      ∀ (i : ℕ) (x y : F),
        (List.zipWith F.sub [F.val 3, F.nan] [F.val 1, F.val 1])[i]? = some x →
        (List.zipWith F.sub [F.val 1, F.val 1] [F.val 0, F.val 0])[i]? = some y →
        ccdGuard lineCCD x y = true → out[i]? = some RF.nan :=
  ⟨rfl, rfl, fun p => by simp [zeroRootO],
    ccdCall_total_guard_nan zeroRootO lineCCD
      [F.val 3, F.nan] [F.val 1, F.val 1] [F.val 0, F.val 0] rfl rfl
      (fun p => by simp [zeroRootO])⟩

/-! ### Percentile interpolation lemmas, for the zero-spread analysis -/

theorem natCast_div4_floor (a : ℕ) : (⌊((a : ℚ)) / 4⌋).toNat = a / 4 := by
  rw [Int.floor_toNat, show ((4 : ℚ)) = ((4 : ℕ) : ℚ) by norm_num, Nat.floor_div_nat]
  simp

theorem div4_gamma_bounds (a : ℕ) :
    0 ≤ (a : ℚ) / 4 - ((a / 4 : ℕ) : ℚ) ∧ (a : ℚ) / 4 - ((a / 4 : ℕ) : ℚ) < 1 := by
  have h1 : (a / 4) * 4 ≤ a := Nat.div_mul_le_self a 4
  have h2 : a < (a / 4 + 1) * 4 := by omega
  constructor
  · rw [sub_nonneg, le_div_iff₀ (by norm_num : (0 : ℚ) < 4)]
    exact_mod_cast h1
  · rw [sub_lt_iff_lt_add, div_lt_iff₀ (by norm_num : (0 : ℚ) < 4)]
    have h2q : (a : ℚ) < (((a / 4 : ℕ) : ℚ) + 1) * 4 := by exact_mod_cast h2
    linarith

theorem sorted_getD_mono {s : List ℚ} (hs : s.Sorted (fun a b => a ≤ b))
    {i j : ℕ} (hij : i ≤ j) (hj : j < s.length) : s.getD i 0 ≤ s.getD j 0 := by
  have hi : i < s.length := lt_of_le_of_lt hij hj
  rw [List.getD_eq_getElem?_getD, List.getElem?_eq_getElem hi,
    List.getD_eq_getElem?_getD, List.getElem?_eq_getElem hj]
  simp only [Option.getD_some]
  have h2 := List.Sorted.rel_get_of_le hs
    (a := ⟨i, hi⟩) (b := ⟨j, hj⟩) (by simpa [Fin.mk_le_mk] using hij)
  simpa [List.get_eq_getElem] using h2

theorem getD_mem {s : List ℚ} {i : ℕ} (hi : i < s.length) : s.getD i 0 ∈ s := by
  rw [List.getD_eq_getElem?_getD, List.getElem?_eq_getElem hi]
  simp only [Option.getD_some]
  exact List.getElem_mem hi

theorem getElemD_mem {s : List ℚ} {i : ℕ} (hi : i < s.length) : s[i]?.getD 0 ∈ s := by
  rw [List.getElem?_eq_getElem hi]
  simp only [Option.getD_some]
  exact List.getElem_mem hi

/-- The interpolation kernel at the quartile levels `p = 25k`: the index is
`k(n-1)/4` (by integer division) and the fraction the corresponding
remainder. -/
theorem pctlSorted_quarter (s : List ℚ) (hne : s ≠ []) (k : ℕ) (p : ℚ)
    (hp : p = 25 * k) :
    pctlSorted s p =
      s.getD (k * (s.length - 1) / 4) 0 +
      (((k * (s.length - 1) : ℕ) : ℚ) / 4 - ((k * (s.length - 1) / 4 : ℕ) : ℚ)) *
        (s.getD (k * (s.length - 1) / 4 + 1) 0 - s.getD (k * (s.length - 1) / 4) 0) := by
  have hlen : 1 ≤ s.length := List.length_pos.mpr hne
  have hemp : s.isEmpty = false := by simp [List.isEmpty_iff, hne]
  have hcast : p * ((s.length : ℚ) - 1) / 100 = ((k * (s.length - 1) : ℕ) : ℚ) / 4 := by
    subst hp
    rw [show ((s.length : ℚ) - 1) = ((s.length - 1 : ℕ) : ℚ) by
      rw [Nat.cast_sub hlen]; norm_num]
    push_cast
    ring
  simp only [pctlSorted, hemp, Bool.false_eq_true, if_false, hcast, natCast_div4_floor]

/-- If the first and third quartiles of a sorted nonempty list coincide,
the interpolated median equals them and is attained in the list. -/
theorem pctlSorted_median_attained {s : List ℚ}
    (hs : s.Sorted (fun a b => a ≤ b)) (hne : s ≠ [])
    (heq : pctlSorted s 75 = pctlSorted s 25) :
    pctlSorted s 50 ∈ s ∧ pctlSorted s 50 = pctlSorted s 25 := by
  have e1 := pctlSorted_quarter s hne 1 25 (by norm_num)
  have e2 := pctlSorted_quarter s hne 2 50 (by norm_num)
  have e3 := pctlSorted_quarter s hne 3 75 (by norm_num)
  obtain ⟨m, hnm⟩ : ∃ m : ℕ, s.length = m + 1 :=
    ⟨s.length - 1, by have := List.length_pos.mpr hne; omega⟩
  rw [hnm] at e1 e2 e3
  simp only [Nat.add_sub_cancel] at e1 e2 e3
  rcases m with _ | m1
  · -- one element
    norm_num at e1 e2 e3
    refine ⟨?_, by rw [e2, e1]⟩
    rw [e2]
    exact getElemD_mem (by rw [hnm]; omega)
  rcases m1 with _ | m2
  · -- two elements
    norm_num at e1 e2 e3
    have hd : s[1]?.getD 0 = s[0]?.getD 0 := by
      rw [e3, e1] at heq
      linarith
    have h50 : pctlSorted s 50 = s[0]?.getD 0 := by rw [e2, hd]; ring
    have h25 : pctlSorted s 25 = s[0]?.getD 0 := by rw [e1, hd]; ring
    refine ⟨?_, h50.trans h25.symm⟩
    rw [h50]
    exact getElemD_mem (by rw [hnm]; omega)
  · -- at least three elements
    have hγ1 := div4_gamma_bounds (1 * (m2 + 1 + 1))
    have hγ3 := div4_gamma_bounds (3 * (m2 + 1 + 1))
    have hΔ1 : s.getD (1 * (m2 + 1 + 1) / 4) 0 ≤ s.getD (1 * (m2 + 1 + 1) / 4 + 1) 0 :=
      sorted_getD_mono hs (by omega) (by rw [hnm]; omega)
    have hΔ3 : s.getD (3 * (m2 + 1 + 1) / 4) 0 ≤ s.getD (3 * (m2 + 1 + 1) / 4 + 1) 0 :=
      sorted_getD_mono hs (by omega) (by rw [hnm]; omega)
    have hq75 : s.getD (3 * (m2 + 1 + 1) / 4) 0 ≤ pctlSorted s 75 := by
      rw [e3]
      nlinarith [hγ3.1, hΔ3]
    have hq25 : pctlSorted s 25 ≤ s.getD (1 * (m2 + 1 + 1) / 4 + 1) 0 := by
      rw [e1]
      nlinarith [hγ1.1, hγ1.2, hΔ1]
    have hv13 : s.getD (1 * (m2 + 1 + 1) / 4 + 1) 0 ≤ s.getD (3 * (m2 + 1 + 1) / 4) 0 :=
      sorted_getD_mono hs (by omega) (by rw [hnm]; omega)
    rw [heq] at hq75
    have hA : s.getD (1 * (m2 + 1 + 1) / 4 + 1) 0 = pctlSorted s 25 :=
      le_antisymm (hv13.trans hq75) hq25
    have hB : s.getD (3 * (m2 + 1 + 1) / 4) 0 = pctlSorted s 25 :=
      le_antisymm hq75 (hq25.trans hv13)
    have hv2 : s.getD (2 * (m2 + 1 + 1) / 4) 0 = pctlSorted s 25 := by
      have u1 : s.getD (1 * (m2 + 1 + 1) / 4 + 1) 0 ≤ s.getD (2 * (m2 + 1 + 1) / 4) 0 :=
        sorted_getD_mono hs (by omega) (by rw [hnm]; omega)
      have u2 : s.getD (2 * (m2 + 1 + 1) / 4) 0 ≤ s.getD (3 * (m2 + 1 + 1) / 4) 0 :=
        sorted_getD_mono hs (by omega) (by rw [hnm]; omega)
      rw [hA] at u1
      rw [hB] at u2
      linarith
    rcases Nat.even_or_odd (m2 + 1 + 1) with he | ho
    · obtain ⟨t, ht⟩ := he
      have hg0 : ((2 * (m2 + 1 + 1) : ℕ) : ℚ) / 4 - ((2 * (m2 + 1 + 1) / 4 : ℕ) : ℚ) = 0 := by
        have h4 : 2 * (m2 + 1 + 1) = 4 * t := by omega
        have h5 : 2 * (m2 + 1 + 1) / 4 = t := by omega
        rw [h5, h4]
        push_cast
        ring
      have h50 : pctlSorted s 50 = s.getD (2 * (m2 + 1 + 1) / 4) 0 := by
        rw [e2, hg0]
        ring
      refine ⟨?_, by rw [h50]; exact hv2⟩
      rw [h50]
      exact getD_mem (by rw [hnm]; omega)
    · obtain ⟨t, ht⟩ := ho
      have hg5 : ((2 * (m2 + 1 + 1) : ℕ) : ℚ) / 4 - ((2 * (m2 + 1 + 1) / 4 : ℕ) : ℚ) = 1 / 2 := by
        have h4 : 2 * (m2 + 1 + 1) = 4 * t + 2 := by omega
        have h5 : 2 * (m2 + 1 + 1) / 4 = t := by omega
        rw [h5, h4]
        push_cast
        ring
      have hv21 : s.getD (2 * (m2 + 1 + 1) / 4 + 1) 0 = pctlSorted s 25 := by
        have u1 : s.getD (2 * (m2 + 1 + 1) / 4) 0 ≤ s.getD (2 * (m2 + 1 + 1) / 4 + 1) 0 :=
          sorted_getD_mono hs (by omega) (by rw [hnm]; omega)
        have u2 : s.getD (2 * (m2 + 1 + 1) / 4 + 1) 0 ≤ s.getD (3 * (m2 + 1 + 1) / 4) 0 :=
          sorted_getD_mono hs (by omega) (by rw [hnm]; omega)
        rw [hv2] at u1
        rw [hB] at u2
        linarith
      have h50 : pctlSorted s 50 = pctlSorted s 25 := by
        rw [e2, hg5, hv21, hv2]
        ring
      refine ⟨?_, h50⟩
      rw [h50, ← hv2]
      exact getD_mem (by rw [hnm]; omega)

/-- On nonempty NaN-free data the float percentile is the rational one. -/
theorem pctlF_eq_val {l : List F} (hne : l ≠ [])
    (hfin : l.all (fun v => !v.isNaN) = true) (p : ℚ) :
    pctlF l p = F.val (pctlQ (l.map F.toQ) p) := by
  have h1 : l.isEmpty = false := by simp [List.isEmpty_iff, hne]
  have h2 : l.any F.isNaN = false := by
    rw [List.any_eq_false]
    intro v hv
    have h3 := List.all_eq_true.mp hfin v hv
    simp only [Bool.not_eq_eq_eq_not, Bool.not_true] at h3
    simp [h3]
  simp [pctlF, h1, h2]

unseal Rat.add Rat.mul Rat.inv Rat.sub in
/-- Counterexample to C2 as stated: values `[0,0,0,0,1]`, all selected, have
`Q1 = Q3 = 0` (clip threshold 0), yet the used set is NOT the full selected
set: only the four entries equal to the median survive (`numUsed = 4` of
`total = 5`). -/
theorem calculateStats_zero_spread_not_full_set :
    (calculateStats 4 [F.val 0, F.val 0, F.val 0, F.val 0, F.val 1]
        [true, true, true, true, true] none).clip = F.val 0 ∧
    (calculateStats 4 [F.val 0, F.val 0, F.val 0, F.val 0, F.val 1]
        [true, true, true, true, true] none).dataUsed =
      [true, true, true, true, false] ∧
    (calculateStats 4 [F.val 0, F.val 0, F.val 0, F.val 0, F.val 1]
        [true, true, true, true, true] none).num = 4 ∧
    (calculateStats 4 [F.val 0, F.val 0, F.val 0, F.val 0, F.val 1]
        [true, true, true, true, true] none).total = 5 := by
  decide

/-- Claim C2 (amended): with zero interquartile spread among the selected
values the clip threshold is 0, and there is NO fallback to the full
selected set — the used mask keeps exactly the selected entries whose value
equals the median.  The used count nonetheless does not collapse to 0,
because the interpolated median is attained among the (NaN-free) selected
values; it can still be smaller than the selected count. -/
theorem calculateStats_zero_spread_used_set (clipCfg : ℚ) (quantity : List F)
    (selection : List Bool) (forcedMean : Option F)
    (hlen : quantity.length = selection.length)
    (h : 0 < countTrue selection)
    (hfin : (maskL quantity selection).all (fun v => !v.isNaN) = true)
    (hIQR : pctlF (maskL quantity selection) 75 = pctlF (maskL quantity selection) 25) :
    (calculateStats clipCfg quantity selection forcedMean).clip = F.val 0 ∧
    (calculateStats clipCfg quantity selection forcedMean).dataUsed =
      (selection.zip quantity).map (fun sq => sq.1 &&
        decide (sq.2 = (calculateStats clipCfg quantity selection forcedMean).median)) ∧
    1 ≤ (calculateStats clipCfg quantity selection forcedMean).num := by
  have hne : ¬(countTrue selection = 0) := Nat.pos_iff_ne_zero.mp h
  have hselne : maskL quantity selection ≠ [] := by
    have hl2 := length_maskL quantity selection hlen
    intro hcon
    rw [hcon] at hl2
    simp at hl2
    omega
  have h75 := pctlF_eq_val hselne hfin 75
  have h25 := pctlF_eq_val hselne hfin 25
  have h50 := pctlF_eq_val hselne hfin 50
  set l := (maskL quantity selection).map F.toQ with hldef
  have hq : pctlQ l 75 = pctlQ l 25 := by
    rw [h75, h25] at hIQR
    injection hIQR
  set s := l.insertionSort (fun a b => a ≤ b) with hsdef
  have hslen : s.length = l.length :=
    (List.perm_insertionSort (fun a b => a ≤ b) l).length_eq
  have hlne : l ≠ [] := by simp [hldef, hselne]
  have hsne : s ≠ [] := by
    intro hcon
    rw [hcon] at hslen
    simp at hslen
    exact hlne (List.length_eq_zero.mp hslen.symm)
  have hsorted : s.Sorted (fun a b => a ≤ b) :=
    List.sorted_insertionSort (fun a b => a ≤ b) l
  obtain ⟨hmem, h50eq⟩ := pctlSorted_median_attained hsorted hsne hq
  have hmed : (calculateStats clipCfg quantity selection forcedMean).median =
      F.val (pctlQ l 50) := by
    simp only [calculateStats, hne, if_false]
    exact h50
  have hclip : (calculateStats clipCfg quantity selection forcedMean).clip = F.val 0 := by
    simp only [calculateStats, hne, if_false]
    rw [h75, h25, hq]
    simp [F.sub, F.mul]
  have hgood : (calculateStats clipCfg quantity selection forcedMean).dataUsed =
      (selection.zip quantity).map (fun sq => sq.1 &&
        decide (sq.2 = (calculateStats clipCfg quantity selection forcedMean).median)) := by
    rw [hmed]
    simp only [calculateStats, hne, if_false]
    apply List.map_congr_left
    intro sq hsq
    rcases sq with ⟨b, v⟩
    rcases b with _ | _
    · simp
    · have hvmem : v ∈ maskL quantity selection := by
        obtain ⟨i, hi⟩ := List.mem_iff_getElem?.mp hsq
        rw [List.zip_eq_zipWith] at hi
        obtain ⟨b2, v2, hb2, hv2, hbv⟩ :=
          getElem?_zipWith_inv Prod.mk selection quantity i (true, v) hi
        injection hbv.symm with hb3 hv3
        subst hb3
        subst hv3
        exact mem_maskL hv2 hb2
      have hvfin : v.isNaN = false := by
        have h4 := List.all_eq_true.mp hfin v hvmem
        simpa using h4
      rcases v with _ | vq
      · simp [F.isNaN] at hvfin
      · rw [h75, h25, hq, h50]
        by_cases hvc : vq = pctlQ l 50
        · simp [hvc, F.sub, F.fabs, F.gtb, F.mul]
        · have habs : 0 < |vq - pctlQ l 50| := abs_pos.mpr (sub_ne_zero.mpr hvc)
          simp [F.sub, F.fabs, F.gtb, F.mul, hvc, habs]
  refine ⟨hclip, hgood, ?_⟩
  have hmem2 : pctlQ l 50 ∈ l :=
    ((List.perm_insertionSort (fun a b => a ≤ b) l).mem_iff).mp hmem
  have hcmem : F.val (pctlQ l 50) ∈ maskL quantity selection := by
    obtain ⟨v, hvmem, hveq⟩ := List.mem_map.mp hmem2
    have hvfin : v.isNaN = false := by
      have h4 := List.all_eq_true.mp hfin v hvmem
      simpa using h4
    rcases v with _ | vq
    · simp [F.isNaN] at hvfin
    · have hvq : vq = pctlQ l 50 := by simpa [F.toQ] using hveq
      rw [← hvq]
      exact hvmem
  obtain ⟨i, hqi, hsi⟩ := maskL_mem_exists hcmem
  have hz : (selection.zip quantity)[i]? = some (true, F.val (pctlQ l 50)) :=
    zip_getElem?_some hsi hqi
  have hused : (calculateStats clipCfg quantity selection forcedMean).dataUsed[i]? =
      some true := by
    rw [hgood, List.getElem?_map, hz]
    simp [hmed]
  have hnum : (calculateStats clipCfg quantity selection forcedMean).num =
      countTrue (calculateStats clipCfg quantity selection forcedMean).dataUsed := by
    simp only [calculateStats, hne, if_false]
  rw [hnum]
  exact countTrue_pos_of_getElem hused

unseal Rat.add Rat.mul Rat.inv Rat.sub in
/-- Witness for the amended C2 on the concrete zero-spread data. -/
theorem calculateStats_zero_spread_used_set_witness :
    ([F.val 0, F.val 0, F.val 0, F.val 0, F.val 1] : List F).length =
      ([true, true, true, true, true] : List Bool).length ∧
    0 < countTrue [true, true, true, true, true] ∧
    (maskL [F.val 0, F.val 0, F.val 0, F.val 0, F.val 1]
      [true, true, true, true, true]).all (fun v => !v.isNaN) = true ∧
    pctlF (maskL [F.val 0, F.val 0, F.val 0, F.val 0, F.val 1]
        [true, true, true, true, true]) 75 =
      pctlF (maskL [F.val 0, F.val 0, F.val 0, F.val 0, F.val 1]
        [true, true, true, true, true]) 25 ∧
    ((calculateStats 4 [F.val 0, F.val 0, F.val 0, F.val 0, F.val 1]
        [true, true, true, true, true] none).clip = F.val 0 ∧
     (calculateStats 4 [F.val 0, F.val 0, F.val 0, F.val 0, F.val 1]
        [true, true, true, true, true] none).dataUsed =
       (([true, true, true, true, true] : List Bool).zip
           [F.val 0, F.val 0, F.val 0, F.val 0, F.val 1]).map (fun sq => sq.1 &&
         decide (sq.2 = (calculateStats 4 [F.val 0, F.val 0, F.val 0, F.val 0, F.val 1]
           [true, true, true, true, true] none).median)) ∧
     1 ≤ (calculateStats 4 [F.val 0, F.val 0, F.val 0, F.val 0, F.val 1]
        [true, true, true, true, true] none).num) :=
  ⟨rfl, by decide, by decide, by decide,
    calculateStats_zero_spread_used_set 4 [F.val 0, F.val 0, F.val 0, F.val 0, F.val 1]
      [true, true, true, true, true] none rfl (by decide) (by decide) (by decide)⟩

end AnalysisSpec
